import Mathlib

/-!
Verification development for the macro-analytics ingestion pipeline
(`src/main.py`, `src/apis.py`, `src/models.py`).

The Python code is shallowly embedded:
* Python strings are `String` / `List Char`; JSON `null` is `Option.none`.
* Numeric transaction values (floats in the source) are carried as opaque
  `Option Int` data: the pipeline only copies and compares them for equality.
* `datetime` values produced by date parsing are opaque: the two library
  parsers (`datetime.fromisoformat`, `datetime.strptime` with `%d/%m/%Y`)
  are parameters of the pipeline (`ParseEnv`), both returning `Option`,
  matching the fact that every parse failure is swallowed by the code.
* The relational store is a list of stored rows (`StoredTxn`, mirroring the
  columns of `models.Transaction`); SQLAlchemy query filters become list
  predicates, and each committed chunk appends to the list.
-/

namespace Macro

/-- Python `str.strip()` on a list of characters: drop leading and trailing
whitespace. -/
def pystrip (l : List Char) : List Char :=
  ((l.dropWhile Char.isWhitespace).reverse.dropWhile Char.isWhitespace).reverse

/-- Core of `mask_account_number` (identical in `src/main.py` lines 90-130 and
`src/apis.py` lines 37-75), over the character list of the input string.
`none` models Python `None`; the empty input (Python falsy) also yields
`none`. -/
def maskChars (a : List Char) (exists_in_db : Bool) : Option (List Char) :=
  if a = [] then none
  else if (pystrip a).any (fun c => c.toLower == 'x') then some (pystrip a)
  else if (pystrip a).length ≤ 4 then some (pystrip a)
  else
    some (List.replicate
        ((pystrip a).length - min (if exists_in_db then 5 else 4) (pystrip a).length) 'X'
      ++ (pystrip a).drop
        ((pystrip a).length - min (if exists_in_db then 5 else 4) (pystrip a).length))

/-- `mask_account_number` from `src/main.py` lines 90-130 (= `src/apis.py`
lines 37-75), on an optional string. -/
def mask_account_number (account_number : Option String) (exists_in_db : Bool) :
    Option String :=
  match account_number with
  | none => none
  | some s => (maskChars s.data exists_in_db).map List.asString

/-- Python truthiness of an optional string: `None` and `""` are falsy. -/
def truthyS (v : Option String) : Bool :=
  match v with
  | none => false
  | some s => s ≠ ""

/-- The in-flight transaction dict built by `upload_file` (both variants).
Fields carry the keys the extraction loops create; `date` holds the raw
string before the processing loop and the opaque parsed value afterwards,
exactly as the Python dict is retyped in place.  `masked_account_number` is
absent (`none`) until the processing loop sets it. -/
structure Txn where
  client_name : Option String := none
  work_order_id : Option String := none
  date : Option String := none
  description : Option String := none
  type : Option String := none
  amount : Option Int := none
  balance : Option Int := none
  account_number : Option String := none
  reference : Option String := none
  entities : Option String := none
  od_limit : Option Int := none
  charges : Option Int := none
  bank_name : Option String := none
  category : Option String := none
  category_2 : Option String := none
  mode : Option String := none
  account_name : Option String := none
  ifsc_code : Option String := none
  micr_code : Option String := none
  account_type : Option String := none
  account_address : Option String := none
  pincode : Option String := none
  masked_account_number : Option String := none
  deriving DecidableEq, Repr

/-- A stored row: the columns of `models.Transaction` (`src/models.py`)
that the pipeline writes (`id` and the server-side timestamps omitted).
There are no raw `account_number` / `account_address` columns. -/
structure StoredTxn where
  work_order_id : Option String := none
  client_name : Option String := none
  date : Option String := none
  description : Option String := none
  amount : Option Int := none
  type : Option String := none
  balance : Option Int := none
  reference : Option String := none
  od_limit : Option Int := none
  charges : Option Int := none
  category : Option String := none
  category_2 : Option String := none
  mode : Option String := none
  masked_account_number : Option String := none
  account_name : Option String := none
  account_type : Option String := none
  bank_name : Option String := none
  ifsc_code : Option String := none
  micr_code : Option String := none
  pincode : Option String := none
  entities : Option String := none
  deriving DecidableEq, Repr

/-- The row `insert(Transaction).values(...)` builds from a processed dict:
every remaining key maps to its column. -/
def toStored (t : Txn) : StoredTxn :=
  { work_order_id := t.work_order_id
    client_name := t.client_name
    date := t.date
    description := t.description
    amount := t.amount
    type := t.type
    balance := t.balance
    reference := t.reference
    od_limit := t.od_limit
    charges := t.charges
    category := t.category
    category_2 := t.category_2
    mode := t.mode
    masked_account_number := t.masked_account_number
    account_name := t.account_name
    account_type := t.account_type
    bank_name := t.bank_name
    ifsc_code := t.ifsc_code
    micr_code := t.micr_code
    pincode := t.pincode
    entities := t.entities }

/-- The two standard-library date parsers used by the processing loop
(`datetime.fromisoformat` and `datetime.strptime` with `"%d/%m/%Y"`),
treated as opaque parameters; each returns `none` on failure, since the
code swallows every parse exception. -/
structure ParseEnv where
  iso : String → Option String
  dmy : String → Option String

/-- Python `s.replace("Z", "+00:00")`: every occurrence of the
one-character pattern is substituted. -/
def replaceZ (s : String) : String :=
  (s.data.flatMap (fun c => if c == 'Z' then "+00:00".data else [c])).asString

/-- The date-parsing block of the processing loop (`src/main.py` lines
558-572 = `src/apis.py` lines 363-377): on a truthy raw value, try
ISO-8601 after replacing `"Z"` with `"+00:00"`, then `%d/%m/%Y`, else
leave the date unset. -/
def parseDate (P : ParseEnv) (raw : Option String) : Option String :=
  match raw with
  | none => none
  | some s =>
      if s ≠ "" then
        match P.iso (replaceZ s) with
        | some d => some d
        | none => P.dmy s
      else none

/-- `get_masked_account_number` from `src/main.py` lines 133-162
(= `src/apis.py` lines 78-107): mask with 4 revealed digits, look that
masked form up among stored rows, and re-mask with 5 revealed digits when
it is found. -/
def get_masked_account_number (db : List StoredTxn) (account_number : Option String) :
    Bool × Option String :=
  if truthyS account_number = false then (false, none)
  else
    let masked_4_digits := mask_account_number account_number false
    if db.any (fun r => r.masked_account_number == masked_4_digits) then
      (true, mask_account_number account_number true)
    else (false, masked_4_digits)

/-- `get_existing_work_order_ids` from `src/main.py` lines 165-195: keep the
truthy incoming ids, deduplicate, and return those that occur as the
`work_order_id` of some stored row. -/
def get_existing_work_order_ids (db : List StoredTxn) (work_order_ids : List (Option String)) :
    List String :=
  let unique_ids := ((work_order_ids.filterMap id).filter (fun w => w ≠ "")).dedup
  unique_ids.filter (fun w => db.any (fun r => r.work_order_id == some w))

/-- `is_duplicate_transaction` from `src/apis.py` lines 110-145: a stored row
is a match when it agrees with the record on every filter the code adds;
a filter is added for `date` when the parsed date is not `None`, for
`amount`/`balance`/`charges` when they are not `None`, and for
`type`/`masked_account_number`/`description`/`reference` when they are
truthy strings. -/
def is_duplicate_transaction (db : List StoredTxn) (t : Txn) : Bool :=
  db.any (fun r =>
    (!t.date.isSome || r.date == t.date) &&
    (!t.amount.isSome || r.amount == t.amount) &&
    (!t.balance.isSome || r.balance == t.balance) &&
    (!t.charges.isSome || r.charges == t.charges) &&
    (!truthyS t.type || r.type == t.type) &&
    (!truthyS t.masked_account_number ||
      r.masked_account_number == t.masked_account_number) &&
    (!truthyS t.description || r.description == t.description) &&
    (!truthyS t.reference || r.reference == t.reference))

/-- The record-level duplicate criterion in the words of the specification:
an existing stored row matches on every *present* field among date, amount,
balance, charges, direction type, masked account number, description and
reference, absent fields being excluded from the match. -/
def dupMatches (t : Txn) (r : StoredTxn) : Prop :=
  (t.date.isSome → r.date = t.date) ∧
  (t.amount.isSome → r.amount = t.amount) ∧
  (t.balance.isSome → r.balance = t.balance) ∧
  (t.charges.isSome → r.charges = t.charges) ∧
  (truthyS t.type → r.type = t.type) ∧
  (truthyS t.masked_account_number →
    r.masked_account_number = t.masked_account_number) ∧
  (truthyS t.description → r.description = t.description) ∧
  (truthyS t.reference → r.reference = t.reference)

/-- `INSERT_BATCH_SIZE` from `src/main.py` line 26. -/
def INSERT_BATCH_SIZE : Nat := 500

/-- `all_transactions[0].get("account_number") if all_transactions else None`
(`src/main.py` lines 537-539 = `src/apis.py` lines 352-354). -/
def firstAccountNumber (txns : List Txn) : Option String :=
  match txns.head? with
  | some t => t.account_number
  | none => none

/-- Body of the `main.py` processing loop (lines 556-584): parse the date in
place, overwrite `masked_account_number` with the batch-wide first mask, and
pop the raw `account_number` and `account_address` keys.  Every operation is
total, so the surrounding `try` can never fire. -/
def mainProcessRow (P : ParseEnv) (first_masked : Option String) (t : Txn) : Txn :=
  { t with
    date := parseDate P t.date
    masked_account_number := first_masked
    account_number := none
    account_address := none }

/-- The chunks `range(0, len(rows), n)` slices `rows` into
(`src/main.py` lines 595-596); recursion on a fuel that starts at the list
length so the definition reduces by `rfl`. -/
def chunksGo (n : Nat) : Nat → List α → List (List α)
  | 0, _ => []
  | fuel + 1, l => if l.isEmpty then [] else l.take n :: chunksGo n fuel (l.drop n)

/-- Slice a list into chunks of at most `n` elements. -/
def chunksF (n : Nat) (l : List α) : List (List α) :=
  chunksGo n l.length l

/-- The chunked-insert loop of `src/main.py` lines 595-600, parameterised by
which chunk commits succeed (`ok i` = the `i`-th executed chunk's
insert+commit does not raise).  On success the chunk is appended to the
store and counted; on failure the loop stops: the transaction is rolled
back, the error is surfaced, and earlier commits remain. -/
def persistChunks (ok : Nat → Bool) : Nat → List StoredTxn → Nat →
    List (List StoredTxn) → List StoredTxn × Nat × Bool
  | _, db, saved, [] => (db, saved, false)
  | i, db, saved, c :: cs =>
      if ok i then persistChunks ok (i + 1) (db ++ c) (saved + c.length) cs
      else (db, saved, true)

/-- Observable outcome of the `main.py` upload pipeline after extraction:
the final store, the batch handed to the persister, the reported counts,
the per-record error list, and whether a storage error was surfaced. -/
structure MainResult where
  db : List StoredTxn
  processed : List Txn
  records_saved : Nat
  duplicates_skipped : Nat
  errors : List String
  dbError : Bool
  deriving DecidableEq, Repr

/-- The batch-level short-circuit test of `src/main.py` line 550:
`work_order_id and work_order_id in existing_work_order_ids`. -/
def mainShortCircuit (db : List StoredTxn) (work_order_id : Option String)
    (txns : List Txn) : Bool :=
  match work_order_id with
  | some w =>
      w ≠ "" && (get_existing_work_order_ids db (txns.map (·.work_order_id))).contains w
  | none => false

/-- `upload_file` from `src/main.py`, lines 533-621, from the point where
`all_transactions` has been extracted: compute the first mask (always with
`exists_in_db=False`), check the batch-level short-circuit against the
stored work-order ids, otherwise process every record, then insert the
processed records in chunks of `INSERT_BATCH_SIZE`. -/
def mainProcess (P : ParseEnv) (ok : Nat → Bool) (db : List StoredTxn)
    (work_order_id : Option String) (txns : List Txn) : MainResult :=
  let first_masked := mask_account_number (firstAccountNumber txns) false
  if mainShortCircuit db work_order_id txns then
    { db := db, processed := [], records_saved := 0,
      duplicates_skipped := txns.length, errors := [], dbError := false }
  else
    let processed := txns.map (mainProcessRow P first_masked)
    let r := persistChunks ok 0 db 0 (chunksF INSERT_BATCH_SIZE (processed.map toStored))
    { db := r.1, processed := processed, records_saved := r.2.1,
      duplicates_skipped := 0, errors := [], dbError := r.2.2 }

/-- The date-parse / mask assignment prefix of the `apis.py` loop body
(lines 363-379), before the duplicate check; raw fields are still present. -/
def apisRowCore (P : ParseEnv) (first_masked : Option String) (t : Txn) : Txn :=
  { t with
    date := parseDate P t.date
    masked_account_number := first_masked }

/-- `row.pop("account_number", None); row.pop("account_address", None)`
(`src/apis.py` lines 387-388 = `src/main.py` lines 575-576). -/
def popRaw (t : Txn) : Txn :=
  { t with account_number := none, account_address := none }

/-- One iteration of the `apis.py` processing loop (lines 361-396): returns
the row in its state at the end of the iteration together with its
classification (`true` = duplicate).  A duplicate row is skipped *before*
the raw fields are popped. -/
def apisProcessRow (P : ParseEnv) (db : List StoredTxn)
    (first_masked : Option String) (t : Txn) : Txn × Bool :=
  let t' := apisRowCore P first_masked t
  if is_duplicate_transaction db t' then (t', true)
  else (popRaw t', false)

/-- The `apis.py` processing loop over all extracted records: accumulates
the processed list and the duplicate count.  The store queried by the
duplicate check is constant during the loop (the insert happens after it). -/
def apisLoop (P : ParseEnv) (db : List StoredTxn) (first_masked : Option String) :
    List Txn → List Txn × Nat
  | [] => ([], 0)
  | t :: ts =>
      let r := apisProcessRow P db first_masked t
      let rest := apisLoop P db first_masked ts
      if r.2 then (rest.1, rest.2 + 1) else (r.1 :: rest.1, rest.2)

/-- Observable outcome of the `apis.py` upload pipeline after extraction. -/
structure ApisResult where
  db : List StoredTxn
  processed : List Txn
  records_saved : Nat
  duplicates_skipped : Nat
  errors : List String
  deriving DecidableEq, Repr

/-- `upload_file` from `src/apis.py`, lines 348-424, from the point where
`all_transactions` has been extracted: compute the first mask (always with
`exists_in_db=False`), run the per-record loop with its record-level
duplicate check, then insert all processed records as one statement. -/
def apisProcess (P : ParseEnv) (db : List StoredTxn) (txns : List Txn) : ApisResult :=
  let first_masked := mask_account_number (firstAccountNumber txns) false
  let r := apisLoop P db first_masked txns
  let db' := if r.1.isEmpty then db else db ++ r.1.map toStored
  { db := db', processed := r.1, records_saved := r.1.length,
    duplicates_skipped := r.2, errors := [] }

/-- A columnar transaction sub-object: array-valued keys, each possibly
missing (`none`) and each array holding possibly-null entries.  The
`account_name` array is only read by the nested-list dialect. -/
structure Columnar where
  date : Option (List (Option String)) := none
  description : Option (List (Option String)) := none
  type : Option (List (Option String)) := none
  amount : Option (List (Option Int)) := none
  balance : Option (List (Option Int)) := none
  account_number : Option (List (Option String)) := none
  reference : Option (List (Option String)) := none
  entities : Option (List (Option String)) := none
  od_limit : Option (List (Option Int)) := none
  charges : Option (List (Option Int)) := none
  bank_name : Option (List (Option String)) := none
  category : Option (List (Option String)) := none
  category_2 : Option (List (Option String)) := none
  mode : Option (List (Option String)) := none
  account_name : Option (List (Option String)) := none
  deriving DecidableEq, Repr

/-- The `MetaData` section in the columnar dialect: scalar fields. -/
structure MetaS where
  account_name : Option String := none
  ifsc_code : Option String := none
  micr_code : Option String := none
  account_type : Option String := none
  account_address : Option String := none
  deriving DecidableEq, Repr

/-- The `MetaData` section in the nested-list dialect: array fields indexed
by the extraction's metadata counter. -/
structure MetaA where
  ifsc_code : Option (List (Option String)) := none
  micr_code : Option (List (Option String)) := none
  account_type : Option (List (Option String)) := none
  account_address : Option (List (Option String)) := none
  deriving DecidableEq, Repr

/-- The value under a key of a nested-list element: either a columnar
sub-object or anything else (which fails `isinstance(value, dict)`). -/
inductive JVal where
  | prim : JVal
  | col : Columnar → JVal
  deriving DecidableEq, Repr

/-- An element of the nested-list `Xns` array: either not a dict (skipped by
the loop) or an object given as its ordered key/value pairs. -/
inductive JItem where
  | nondict : JItem
  | obj : List (String × JVal) → JItem
  deriving DecidableEq, Repr

/-- Python `maybe_list[idx]`: raises when the key was missing (`None[idx]`)
or the index is out of range. -/
def arrF (o : Option (List α)) (idx : Nat) : Except Unit α :=
  match o with
  | none => .error ()
  | some l => if h : idx < l.length then .ok (l.get ⟨idx, h⟩) else .error ()

/-- Python `mdict.get(field)` where `mdict` may be `None` (raises). -/
def metaLookup (m : Option MetaS) (f : MetaS → Option String) : Except Unit (Option String) :=
  match m with
  | none => .error ()
  | some md => .ok (f md)

/-- A regex word character (`[A-Za-z0-9_]`). -/
def isWordChar (c : Char) : Bool := c.isAlphanum || c == '_'

/-- Whether `re.search(r"[\]b[\]d{6}[\]b", s)` matches at position `i`:
six digits with word boundaries on both sides. -/
def sixDigitsAt (l : List Char) (i : Nat) : Bool :=
  decide (i + 6 ≤ l.length) && ((l.drop i).take 6).all Char.isDigit &&
    (i == 0 || !isWordChar (l.getD (i - 1) ' ')) &&
    (i + 6 == l.length || !isWordChar (l.getD (i + 6) ' '))

/-- Leftmost six-consecutive-digit token of a string, as used by the pincode
derivation. -/
def findSixDigit (s : String) : Option String :=
  ((List.range s.length).find? (sixDigitsAt s.data)).map
    (fun i => ((s.data.drop i).take 6).asString)

/-- The pincode expression of the extraction loops: search the address (or
`""` when it is null) for a six-digit token, strip any space from the match,
else `""`. -/
def pincodeOf (addr : Option String) : String :=
  match findSixDigit (addr.getD "") with
  | some p => (p.data.filter (fun c => !(c == ' '))).asString
  | none => ""

/-- One iteration of the columnar-dialect extraction loop (`src/main.py`
lines 397-436): each array access may raise; `metadata` itself may be
`None`, in which case every `.get` on it raises. -/
def extractColumnarRow (x : Columnar) (m : Option MetaS)
    (client_name work_order_id : Option String) (idx : Nat) : Except Unit Txn := do
  let date ← arrF x.date idx
  let description ← arrF x.description idx
  let type ← arrF x.type idx
  let amount ← arrF x.amount idx
  let balance ← arrF x.balance idx
  let account_number ← arrF x.account_number idx
  let reference ← arrF x.reference idx
  let entities ← arrF x.entities idx
  let od_limit ← arrF x.od_limit idx
  let charges ← arrF x.charges idx
  let bank_name ← arrF x.bank_name idx
  let category ← arrF x.category idx
  let category_2 ← arrF x.category_2 idx
  let mode ← arrF x.mode idx
  let account_name ← metaLookup m (·.account_name)
  let ifsc_code ← metaLookup m (·.ifsc_code)
  let micr_code ← metaLookup m (·.micr_code)
  let account_type ← metaLookup m (·.account_type)
  let account_address ← metaLookup m (·.account_address)
  return { client_name := client_name, work_order_id := work_order_id,
           date := date, description := description, type := type,
           amount := amount, balance := balance,
           account_number := account_number, reference := reference,
           entities := entities, od_limit := od_limit, charges := charges,
           bank_name := bank_name, category := category,
           category_2 := category_2, mode := mode,
           account_name := account_name, ifsc_code := ifsc_code,
           micr_code := micr_code, account_type := account_type,
           account_address := account_address,
           pincode := some (pincodeOf account_address) }

/-- The columnar-dialect extraction loop with its single surrounding
`try` (`src/main.py` lines 394-441): the first failing record aborts the
whole loop, keeping the records appended so far; the `Bool` is `false` when
an error was caught (and merely logged). -/
def extractColGo (x : Columnar) (m : Option MetaS)
    (client_name work_order_id : Option String) :
    Nat → Nat → List Txn × Bool
  | 0, _ => ([], true)
  | fuel + 1, idx =>
      match extractColumnarRow x m client_name work_order_id idx with
      | .ok t =>
          let r := extractColGo x m client_name work_order_id fuel (idx + 1)
          (t :: r.1, r.2)
      | .error _ => ([], false)

/-- Columnar-dialect extraction: `for idx in range(len(xns_data.get("date", [])))`
under one `try`. -/
def extractColumnar (x : Columnar) (m : Option MetaS)
    (client_name work_order_id : Option String) : List Txn × Bool :=
  extractColGo x m client_name work_order_id (x.date.getD []).length 0

/-- `key.lower().startswith("bankstatement")`. -/
def isMarker (k : String) : Bool :=
  "bankstatement".data.isPrefixOf (k.data.map Char.toLower)

/-- One iteration of the nested-list row loop (`src/main.py` lines 455-504):
like the columnar row but `account_name` comes from the sub-object's array
at `idx` and the four metadata fields from the `MetaData` arrays at the
current metadata counter `mid`. -/
def extractListRow (c : Columnar) (m : Option MetaA)
    (client_name work_order_id : Option String) (mid idx : Nat) : Except Unit Txn := do
  let date ← arrF c.date idx
  let description ← arrF c.description idx
  let type ← arrF c.type idx
  let amount ← arrF c.amount idx
  let balance ← arrF c.balance idx
  let account_number ← arrF c.account_number idx
  let reference ← arrF c.reference idx
  let entities ← arrF c.entities idx
  let od_limit ← arrF c.od_limit idx
  let charges ← arrF c.charges idx
  let bank_name ← arrF c.bank_name idx
  let category ← arrF c.category idx
  let category_2 ← arrF c.category_2 idx
  let mode ← arrF c.mode idx
  let account_name ← arrF c.account_name idx
  let ifsc_code ← arrF (m.bind (·.ifsc_code)) mid
  let micr_code ← arrF (m.bind (·.micr_code)) mid
  let account_type ← arrF (m.bind (·.account_type)) mid
  let account_address ← arrF (m.bind (·.account_address)) mid
  return { client_name := client_name, work_order_id := work_order_id,
           date := date, description := description, type := type,
           amount := amount, balance := balance,
           account_number := account_number, reference := reference,
           entities := entities, od_limit := od_limit, charges := charges,
           bank_name := bank_name, category := category,
           category_2 := category_2, mode := mode,
           account_name := account_name, ifsc_code := ifsc_code,
           micr_code := micr_code, account_type := account_type,
           account_address := account_address,
           pincode := some (pincodeOf account_address) }

/-- The inner `for idx in range(len(value.get("date", [])))` of the
nested-list branch; a failing row stops the rows of this sub-object and
reports the failure to the item level. -/
def extractRowsGo (c : Columnar) (m : Option MetaA)
    (client_name work_order_id : Option String) (mid : Nat) :
    Nat → Nat → List Txn × Bool
  | 0, _ => ([], true)
  | fuel + 1, idx =>
      match extractListRow c m client_name work_order_id mid idx with
      | .ok t =>
          let r := extractRowsGo c m client_name work_order_id mid fuel (idx + 1)
          (t :: r.1, r.2)
      | .error _ => ([], false)

/-- All rows of one columnar sub-object of the nested-list dialect, at
metadata counter `mid`. -/
def extractRows (c : Columnar) (m : Option MetaA)
    (client_name work_order_id : Option String) (mid : Nat) : List Txn × Bool :=
  extractRowsGo c m client_name work_order_id mid (c.date.getD []).length 0

/-- The `for key, value in item.items()` loop of one nested-list element
(`src/main.py` lines 451-505), inside that element's `try`: marker keys
with a dict value emit rows and then advance the metadata counter; marker
keys with a non-dict value only advance the counter; a row failure aborts
the element, keeping the rows emitted so far and *not* advancing the
counter for the failing key.  Returns (rows, final counter, no-error). -/
def procEntries (m : Option MetaA) (client_name work_order_id : Option String) :
    List (String × JVal) → Nat → List Txn × Nat × Bool
  | [], mid => ([], mid, true)
  | (k, v) :: rest, mid =>
      if isMarker k then
        match v with
        | .col c =>
            let r := extractRows c m client_name work_order_id mid
            if r.2 then
              let r' := procEntries m client_name work_order_id rest (mid + 1)
              (r.1 ++ r'.1, r'.2)
            else (r.1, mid, false)
        | .prim => procEntries m client_name work_order_id rest (mid + 1)
      else procEntries m client_name work_order_id rest mid

/-- The outer `for item in xns_data` loop of the nested-list branch
(`src/main.py` lines 445-509), threading the metadata counter `id` across
elements; non-dict elements are skipped, and an element's caught exception
leaves the counter where the element's processing stopped. -/
def goItems (m : Option MetaA) (client_name work_order_id : Option String) :
    List JItem → Nat → List Txn × Nat
  | [], mid => ([], mid)
  | .nondict :: rest, mid => goItems m client_name work_order_id rest mid
  | .obj es :: rest, mid =>
      let r := procEntries m client_name work_order_id es mid
      let r' := goItems m client_name work_order_id rest r.2.1
      (r.1 ++ r'.1, r'.2)

/-- Nested-list-dialect extraction (`id = 0` then the outer loop). -/
def extractList (items : List JItem) (m : Option MetaA)
    (client_name work_order_id : Option String) : List Txn :=
  (goItems m client_name work_order_id items 0).1

/-- The values of the marker-bearing keys of one object element, in key
order. -/
def markerValsE (es : List (String × JVal)) : List JVal :=
  (es.filter (fun kv => isMarker kv.1)).map (·.2)

/-- The values of the marker-bearing keys of a document, in traversal
order (used to state what the metadata counter actually indexes). -/
def markerVals (items : List JItem) : List JVal :=
  items.flatMap (fun it =>
    match it with
    | .nondict => []
    | .obj es => markerValsE es)

/-- The records the nested-list extraction emits for the metadata-counter
value paired with a marker key's value: a columnar sub-object yields its
rows at that counter, anything else yields none. -/
def markerStep (m : Option MetaA) (cn wid : Option String) (jv : Nat × JVal) : List Txn :=
  match jv.2 with
  | JVal.col c => (extractRows c m cn wid jv.1).1
  | JVal.prim => []

/-- The `main.py` upload pipeline on a whole columnar-dialect document:
extraction followed by processing and persistence.  The extraction's abort
flag is only logged by the code, so it does not reach the pipeline result. -/
def mainUploadDict (P : ParseEnv) (ok : Nat → Bool) (db : List StoredTxn)
    (x : Columnar) (m : Option MetaS)
    (client_name work_order_id : Option String) : MainResult :=
  mainProcess P ok db work_order_id
    (extractColumnar x m client_name work_order_id).1

/-- The chunks whose insert+commit succeeded before the first failure. -/
def committedPart (ok : Nat → Bool) : Nat → List (List StoredTxn) → List (List StoredTxn)
  | _, [] => []
  | i, c :: cs => if ok i then c :: committedPart ok (i + 1) cs else []

/-! ### Concrete fixtures used by counterexamples and witnesses -/

/-- A parse environment in which both library parsers fail, so every date
is left unset. -/
def noParse : ParseEnv := ⟨fun _ => none, fun _ => none⟩

/-- A storage in which every chunk insert succeeds. -/
def allOk : Nat → Bool := fun _ => true

/-- A sample incoming record. -/
def sampleTxn : Txn :=
  { account_number := some "1234567890"
    amount := some 100
    type := some "credit"
    description := some "d"
    reference := some "r" }

/-- A stored row carrying the 4-digit mask of `sampleTxn`'s account number. -/
def storedMasked4 : StoredTxn :=
  { masked_account_number := some "XXXXXX7890"
    amount := some 100 }

/-- `sampleTxn` tagged with a work order id. -/
def sampleTxnW : Txn := { sampleTxn with work_order_id := some "WO1" }

/-- A stored row under the same work order id. -/
def storedW : StoredTxn := { storedMasked4 with work_order_id := some "WO1" }

/-- The stored image of `sampleTxn` after one successful upload through the
`main.py` pipeline (date unset, masked account set, raw fields dropped). -/
def storedDup : StoredTxn :=
  toStored (mainProcessRow noParse (mask_account_number (some "1234567890") false) sampleTxn)

/-- A second incoming record with a different raw account number. -/
def sampleTxn2 : Txn :=
  { sampleTxn with account_number := some "9999999999", description := some "d2" }

/-- A one-row columnar sub-object in which every array access succeeds. -/
def colRow1 : Columnar :=
  { date := some [some "d1"]
    description := some [some "x1"]
    type := some [some "c"]
    amount := some [some 1]
    balance := some [none]
    account_number := some [some "111111"]
    reference := some [some "r1"]
    entities := some [some "e"]
    od_limit := some [none]
    charges := some [none]
    bank_name := some [some "B"]
    category := some [some "k"]
    category_2 := some [some "k2"]
    mode := some [some "m"]
    account_name := some [some "An"] }

/-- Like `colRow1` but with an empty `description` array, so extracting its
first row raises an index error. -/
def colBadRow : Columnar := { colRow1 with description := some [] }

/-- A columnar document whose parallel arrays disagree: `date` has two
entries but `description` only one, so extraction of index 1 raises. -/
def colShort : Columnar :=
  { date := some [some "1/1/2020", some "2/1/2020"]
    description := some [some "d0"]
    type := some [some "c", some "c"]
    amount := some [some 1, some 2]
    balance := some [none, none]
    account_number := some [some "111111", some "111111"]
    reference := some [some "a", some "b"]
    entities := some [some "e", some "e"]
    od_limit := some [none, none]
    charges := some [none, none]
    bank_name := some [some "B", some "B"]
    category := some [some "k", some "k"]
    category_2 := some [some "k2", some "k2"]
    mode := some [some "m", some "m"] }

/-- Scalar metadata for the columnar dialect. -/
def metaScalar : MetaS :=
  { account_name := some "An"
    ifsc_code := some "IF"
    micr_code := some "MI"
    account_type := some "SAV"
    account_address := some "City 560001" }

/-- Two-entry array metadata for the nested-list dialect. -/
def metaArr : MetaA :=
  { ifsc_code := some [some "A", some "B"]
    micr_code := some [some "M1", some "M2"]
    account_type := some [some "S1", some "S2"]
    account_address := some [some "addr1", some "addr2"] }

/-- One outer-list element bearing two marker keys. -/
def itemsTwoMarkers : List JItem :=
  [JItem.obj [("bankStatement1", JVal.col colRow1), ("bankStatement2", JVal.col colRow1)]]

/-- One outer-list element bearing one marker key. -/
def itemsOneMarker : List JItem :=
  [JItem.obj [("bankstatement1", JVal.col colRow1)]]

/-- An element whose first marker key fails mid-extraction while its second
marker key is fully extractable. -/
def itemsAborted : List JItem :=
  [JItem.obj [("bankstatement1", JVal.col colBadRow), ("bankstatement2", JVal.col colRow1)]]


/-! ### Lemmas about `pystrip` -/

theorem pystrip_def (l : List Char) :
    pystrip l = (l.dropWhile Char.isWhitespace).rdropWhile Char.isWhitespace := rfl

theorem pystrip_nil : pystrip [] = [] := rfl

theorem dropWhile_pystrip (l : List Char) :
    (pystrip l).dropWhile Char.isWhitespace = pystrip l := by
  rw [List.dropWhile_eq_self_iff]
  intro hl
  have hpre : (pystrip l) <+: l.dropWhile Char.isWhitespace := by
    rw [pystrip_def]; exact List.rdropWhile_prefix _ _
  have hl' : 0 < (l.dropWhile Char.isWhitespace).length :=
    lt_of_lt_of_le hl hpre.length_le
  have := List.dropWhile_get_zero_not Char.isWhitespace l hl'
  simpa [List.get_eq_getElem, hpre.getElem hl] using this

theorem rdropWhile_pystrip (l : List Char) :
    (pystrip l).rdropWhile Char.isWhitespace = pystrip l := by
  rw [pystrip_def, List.rdropWhile_idempotent]

theorem pystrip_idem (l : List Char) : pystrip (pystrip l) = pystrip l := by
  rw [pystrip_def (pystrip l), dropWhile_pystrip, rdropWhile_pystrip]

/-- A list whose first and last characters are not whitespace is fixed by
`pystrip`. -/
theorem pystrip_eq_self (l : List Char)
    (h1 : l.dropWhile Char.isWhitespace = l)
    (h2 : l.rdropWhile Char.isWhitespace = l) : pystrip l = l := by
  rw [pystrip_def, h1, h2]

theorem pystrip_last_not (l : List Char) (hl : pystrip l ≠ []) :
    ¬ Char.isWhitespace ((pystrip l).getLast hl) :=
  (List.rdropWhile_eq_self_iff.mp (rdropWhile_pystrip l)) hl

theorem pystrip_head_not (l : List Char) (hl : 0 < (pystrip l).length) :
    ¬ Char.isWhitespace ((pystrip l).get ⟨0, hl⟩) :=
  (List.dropWhile_eq_self_iff.mp (dropWhile_pystrip l)) hl

theorem dropWhile_eq_self_of_head? {p : α → Bool} {l : List α} {a : α}
    (h : l.head? = some a) (hp : p a = false) : l.dropWhile p = l := by
  cases l with
  | nil => rfl
  | cons x xs =>
      have : x = a := by simpa using h
      subst this
      simp [List.dropWhile_cons, hp]

theorem rdropWhile_eq_self_of_getLast? {p : α → Bool} {l : List α} {a : α}
    (h : l.getLast? = some a) (hp : p a = false) : l.rdropWhile p = l := by
  rw [List.rdropWhile_eq_self_iff]
  intro hl
  obtain ⟨h', rfl⟩ := List.mem_getLast?_eq_getLast (show a ∈ l.getLast? from h)
  simp [hp]

theorem pystrip_getLast?_not (l : List Char) {c : Char}
    (h : (pystrip l).getLast? = some c) : Char.isWhitespace c = false := by
  obtain ⟨hne, rfl⟩ := List.mem_getLast?_eq_getLast (show c ∈ (pystrip l).getLast? from h)
  simpa using pystrip_last_not l hne

theorem getLast?_drop_of_lt (l : List α) (j : Nat) (h : j < l.length) :
    (l.drop j).getLast? = l.getLast? := by
  rw [List.getLast?_eq_getElem?, List.getLast?_eq_getElem?, List.getElem?_drop,
    List.length_drop]
  congr 1
  omega

theorem maskChars_of_any (a : List Char) (ex : Bool) (ha : a ≠ [])
    (hx : (pystrip a).any (fun c => c.toLower == 'x') = true) :
    maskChars a ex = some (pystrip a) := by
  unfold maskChars
  rw [if_neg ha, if_pos hx]

theorem maskChars_of_short (a : List Char) (ex : Bool) (ha : a ≠ [])
    (hx : (pystrip a).any (fun c => c.toLower == 'x') = false)
    (h4 : (pystrip a).length ≤ 4) :
    maskChars a ex = some (pystrip a) := by
  unfold maskChars
  rw [if_neg ha, if_neg (by simp [hx]), if_pos h4]

theorem maskChars_of_long (a : List Char) (ex : Bool) (ha : a ≠ [])
    (hx : (pystrip a).any (fun c => c.toLower == 'x') = false)
    (h4 : ¬ (pystrip a).length ≤ 4) :
    maskChars a ex = some (List.replicate
        ((pystrip a).length - min (if ex then 5 else 4) (pystrip a).length) 'X'
      ++ (pystrip a).drop
        ((pystrip a).length - min (if ex then 5 else 4) (pystrip a).length)) := by
  unfold maskChars
  rw [if_neg ha, if_neg (by simp [hx]), if_neg h4]

/-- Key algebraic fact behind the idempotence claim: on any input whose
stripped form is nonempty, re-masking the output of `maskChars` with the
same flag returns it unchanged. -/
theorem maskChars_idem (a : List Char) (ex : Bool) (ht : pystrip a ≠ []) :
    (maskChars a ex).bind (fun m => maskChars m ex) = maskChars a ex := by
  have ha : a ≠ [] := by
    intro h; apply ht; rw [h]; rfl
  have hidem : pystrip (pystrip a) = pystrip a := pystrip_idem a
  by_cases hx : (pystrip a).any (fun c => c.toLower == 'x') = true
  · rw [maskChars_of_any a ex ha hx, Option.some_bind,
      maskChars_of_any (pystrip a) ex ht (by rw [hidem]; exact hx), hidem]
  · have hx' : (pystrip a).any (fun c => c.toLower == 'x') = false :=
      Bool.eq_false_iff.mpr hx
    by_cases h4 : (pystrip a).length ≤ 4
    · rw [maskChars_of_short a ex ha hx' h4, Option.some_bind,
        maskChars_of_short (pystrip a) ex ht (by rw [hidem]; exact hx')
          (by rw [hidem]; exact h4), hidem]
    · have h4' : 4 < (pystrip a).length := Nat.lt_of_not_le h4
      have hklen : min (if ex then 5 else 4) (pystrip a).length
          ≤ (pystrip a).length := Nat.min_le_right _ _
      have hkpos : 4 ≤ min (if ex then 5 else 4) (pystrip a).length := by
        have : (if ex then 5 else 4) = 5 ∨ (if ex then 5 else 4) = 4 := by
          rcases ex with _ | _ <;> simp
        rcases this with h | h <;> rw [h] <;> omega
      rw [maskChars_of_long a ex ha hx' h4, Option.some_bind]
      by_cases h0 : (pystrip a).length - min (if ex then 5 else 4) (pystrip a).length = 0
      · rw [h0]
        simp only [List.replicate_zero, List.nil_append, List.drop_zero]
        rw [maskChars_of_long (pystrip a) ex ht (by rw [hidem]; exact hx')
          (by rw [hidem]; exact h4), hidem, h0]
        simp
      · have hdropne : (pystrip a).drop
            ((pystrip a).length - min (if ex then 5 else 4) (pystrip a).length) ≠ [] := by
          intro h
          have := List.drop_eq_nil_iff.mp h
          omega
        have hhead : (List.replicate
            ((pystrip a).length - min (if ex then 5 else 4) (pystrip a).length) 'X'
            ++ (pystrip a).drop
              ((pystrip a).length - min (if ex then 5 else 4) (pystrip a).length)).head?
            = some 'X' := by
          obtain ⟨n, hn⟩ : ∃ n, (pystrip a).length
              - min (if ex then 5 else 4) (pystrip a).length = n + 1 :=
            ⟨(pystrip a).length - min (if ex then 5 else 4) (pystrip a).length - 1,
              by omega⟩
          rw [hn]
          rfl
        have hmne : (List.replicate
            ((pystrip a).length - min (if ex then 5 else 4) (pystrip a).length) 'X'
            ++ (pystrip a).drop
              ((pystrip a).length - min (if ex then 5 else 4) (pystrip a).length)) ≠ [] := by
          intro h
          rw [h] at hhead
          cases hhead
        have hlast : (List.replicate
            ((pystrip a).length - min (if ex then 5 else 4) (pystrip a).length) 'X'
            ++ (pystrip a).drop
              ((pystrip a).length - min (if ex then 5 else 4) (pystrip a).length)).getLast?
            = (pystrip a).getLast? := by
          rw [List.getLast?_append_of_ne_nil _ hdropne]
          exact getLast?_drop_of_lt _ _ (by omega)
        have hstrip : pystrip (List.replicate
            ((pystrip a).length - min (if ex then 5 else 4) (pystrip a).length) 'X'
            ++ (pystrip a).drop
              ((pystrip a).length - min (if ex then 5 else 4) (pystrip a).length))
            = (List.replicate
            ((pystrip a).length - min (if ex then 5 else 4) (pystrip a).length) 'X'
            ++ (pystrip a).drop
              ((pystrip a).length - min (if ex then 5 else 4) (pystrip a).length)) := by
          rw [pystrip_def, dropWhile_eq_self_of_head? hhead (by decide)]
          obtain ⟨c, hc⟩ : ∃ c, (pystrip a).getLast? = some c := by
            rcases h : (pystrip a).getLast? with _ | c
            · exact absurd (List.getLast?_eq_none_iff.mp h) ht
            · exact ⟨c, rfl⟩
          exact rdropWhile_eq_self_of_getLast? (hlast.trans hc)
            (pystrip_getLast?_not a hc)
        have hanym : (List.replicate
            ((pystrip a).length - min (if ex then 5 else 4) (pystrip a).length) 'X'
            ++ (pystrip a).drop
              ((pystrip a).length - min (if ex then 5 else 4) (pystrip a).length)).any
              (fun c => c.toLower == 'x') = true := by
          rw [List.any_eq_true]
          exact ⟨'X', List.mem_append_left _ (List.mem_replicate.mpr ⟨h0, rfl⟩), by decide⟩
        rw [maskChars_of_any _ ex hmne (by rw [hstrip]; exact hanym), hstrip]

/-! ### Claim C5 -/

/-- C5, counterexample: the claim promises that an input longer than 5
characters without mask characters is masked to a string of the *same
length*; the code first strips whitespace, so the input `" 1234567890"`
(11 characters) yields a 10-character result. -/
theorem c5_counterexample :
    mask_account_number (some " 1234567890") false = some "XXXXXX7890" ∧
    (" 1234567890" : String).length = 11 ∧ ("XXXXXX7890" : String).length = 10 := by
  refine ⟨by decide, by decide, by decide⟩

/-- C5 (amended): after stripping surrounding whitespace, an input longer
than 5 characters containing no mask character (upper- or lower-case) is
masked, for `revealExtended` = `ex`, to the stripped input's length with the
last `k` characters (`k` = 5 if `ex` else 4) kept and all preceding
characters replaced by `'X'`; a nonempty stripped input of length at most 4
is returned in stripped form. -/
theorem c5_mask_spec (s : String) (ex : Bool) :
    (5 < (pystrip s.data).length →
      (∀ c ∈ pystrip s.data, c.toLower ≠ 'x') →
      mask_account_number (some s) ex =
        some (List.replicate
            ((pystrip s.data).length - (if ex then 5 else 4)) 'X'
          ++ (pystrip s.data).drop
            ((pystrip s.data).length - (if ex then 5 else 4))).asString) ∧
    (0 < (pystrip s.data).length → (pystrip s.data).length ≤ 4 →
      mask_account_number (some s) ex = some (pystrip s.data).asString) := by
  have hane : 0 < (pystrip s.data).length → s.data ≠ [] := by
    intro h0 h
    rw [h] at h0
    simp [pystrip_nil] at h0
  constructor
  · intro h5 hx
    have ha : s.data ≠ [] := hane (by omega)
    have hx' : (pystrip s.data).any (fun c => c.toLower == 'x') = false := by
      rw [List.any_eq_false]
      intro c hc
      simpa using hx c hc
    have hmin : min (if ex then 5 else 4) (pystrip s.data).length
        = (if ex then 5 else 4) := by
      apply Nat.min_eq_left
      rcases ex with _ | _ <;> simp <;> omega
    simp only [mask_account_number]
    rw [maskChars_of_long s.data ex ha hx' (by omega), hmin]
    rfl
  · intro h0 h4
    have ha : s.data ≠ [] := hane h0
    simp only [mask_account_number]
    by_cases hx : (pystrip s.data).any (fun c => c.toLower == 'x') = true
    · rw [maskChars_of_any s.data ex ha hx]; rfl
    · rw [maskChars_of_short s.data ex ha (Bool.eq_false_iff.mpr hx) h4]; rfl

/-- C5, witness: the theorem applied to the concrete account number
`"1234567890"` with the 4-digit reveal. -/
theorem c5_witness :
    mask_account_number (some "1234567890") false = some "XXXXXX7890" :=
  ((c5_mask_spec "1234567890" false).1 (by decide) (by decide)).trans (by decide)

/-! ### Claim C6 -/

/-- C6, counterexample: the claim promises that any input already containing
the mask placeholder is returned unchanged; the code strips whitespace
first, so `" X123"` comes back as `"X123"`, not unchanged. -/
theorem c6_counterexample :
    mask_account_number (some " X123") false = some "X123" ∧
    some "X123" ≠ some (" X123" : String) := by
  exact ⟨by decide, by decide⟩

/-- C6 (amended): an input containing a mask character (either case) and no
surrounding whitespace is returned unchanged for both reveal flags; and for
every input with nonempty stripped form, applying the mask twice with the
same reveal flag equals applying it once. -/
theorem c6_mask_idem_spec (s : String) (ex : Bool) :
    (s.data.any (fun c => c.toLower == 'x') = true → pystrip s.data = s.data →
      mask_account_number (some s) ex = some s) ∧
    (pystrip s.data ≠ [] →
      (mask_account_number (some s) ex).bind
          (fun m => mask_account_number (some m) ex)
        = mask_account_number (some s) ex) := by
  constructor
  · intro hx hs
    have ha : s.data ≠ [] := by
      intro h
      rw [h] at hx
      cases hx
    simp only [mask_account_number]
    rw [maskChars_of_any s.data ex ha (by rw [hs]; exact hx), hs]
    rfl
  · intro ht
    have hml := maskChars_idem s.data ex ht
    simp only [mask_account_number]
    rcases h : maskChars s.data ex with _ | l
    · rfl
    · rw [h, Option.some_bind] at hml
      show Option.map List.asString (maskChars (List.asString l).data ex)
        = Option.map List.asString (some l)
      have hdata : (List.asString l).data = l := rfl
      rw [hdata, hml]

/-- C6, witness: the amended theorem applied to the already-masked value
`"XXXXXX7890"`. -/
theorem c6_witness :
    (pystrip ("XXXXXX7890" : String).data ≠ []) ∧
    ((mask_account_number (some "XXXXXX7890") false).bind
        (fun m => mask_account_number (some m) false)
      = mask_account_number (some "XXXXXX7890") false) :=
  ⟨by decide, (c6_mask_idem_spec "XXXXXX7890" false).2 (by decide)⟩

/-! ### Lemmas about the batch persister -/

theorem persistChunks_eq (ok : Nat → Bool) :
    ∀ (cs : List (List StoredTxn)) (i : Nat) (db : List StoredTxn) (s : Nat),
      persistChunks ok i db s cs
        = (db ++ (committedPart ok i cs).flatten,
           s + (committedPart ok i cs).flatten.length,
           decide ((committedPart ok i cs).length ≠ cs.length)) := by
  intro cs
  induction cs with
  | nil => intro i db s; simp [persistChunks, committedPart]
  | cons c cs ih =>
      intro i db s
      by_cases h : ok i = true
      · rw [show persistChunks ok i db s (c :: cs)
            = persistChunks ok (i + 1) (db ++ c) (s + c.length) cs by
            simp [persistChunks, h]]
        rw [ih]
        simp [committedPart, h, List.append_assoc]
        omega
      · have h' : ok i = false := Bool.eq_false_iff.mpr h
        rw [show persistChunks ok i db s (c :: cs) = (db, s, true) by
          simp [persistChunks, h']]
        simp [committedPart, h']

theorem committedPart_all_ok (ok : Nat → Bool) (h : ∀ i, ok i = true) :
    ∀ (cs : List (List StoredTxn)) (i : Nat), committedPart ok i cs = cs := by
  intro cs
  induction cs with
  | nil => intro i; rfl
  | cons c cs ih => intro i; simp [committedPart, h i, ih]

theorem chunksGo_flatten (n : Nat) (hn : 0 < n) :
    ∀ (fuel : Nat) (l : List α), l.length ≤ fuel → (chunksGo n fuel l).flatten = l := by
  intro fuel
  induction fuel with
  | zero =>
      intro l hl
      have : l = [] := List.eq_nil_of_length_eq_zero (Nat.le_zero.mp hl)
      simp [this, chunksGo]
  | succ fuel ih =>
      intro l hl
      by_cases he : l.isEmpty
      · rw [List.isEmpty_iff.mp he]
        simp [chunksGo]
      · rw [show chunksGo n (fuel + 1) l = l.take n :: chunksGo n fuel (l.drop n) by
          simp [chunksGo, he]]
        rw [List.flatten_cons, ih (l.drop n) ?_, List.take_append_drop]
        have hlpos : 0 < l.length := by
          rcases l with _ | ⟨x, xs⟩
          · simp at he
          · simp
        rw [List.length_drop]
        omega

theorem chunksF_flatten (n : Nat) (hn : 0 < n) (l : List α) :
    (chunksF n l).flatten = l :=
  chunksGo_flatten n hn l.length l (Nat.le_refl _)

theorem chunksGo_size (n : Nat) :
    ∀ (fuel : Nat) (l : List α) (c : List α), c ∈ chunksGo n fuel l → c.length ≤ n := by
  intro fuel
  induction fuel with
  | zero => intro l c hc; simp [chunksGo] at hc
  | succ fuel ih =>
      intro l c hc
      by_cases he : l.isEmpty
      · simp [chunksGo, he] at hc
      · rw [show chunksGo n (fuel + 1) l = l.take n :: chunksGo n fuel (l.drop n) by
          simp [chunksGo, he]] at hc
        rcases List.mem_cons.mp hc with h | h
        · rw [h]
          simp [List.length_take_le n l]
        · exact ih (l.drop n) c h

/-! ### Lemmas about the batch-level short-circuit -/

theorem get_existing_contains (db : List StoredTxn) (ids : List (Option String)) (w : String) :
    (get_existing_work_order_ids db ids).contains w = true ↔
      (some w ∈ ids ∧ w ≠ "" ∧ ∃ r ∈ db, r.work_order_id = some w) := by
  simp only [get_existing_work_order_ids]
  rw [List.elem_iff, List.mem_filter,
    List.mem_dedup, List.mem_filter, List.mem_filterMap]
  constructor
  · rintro ⟨⟨⟨o, ho, hid⟩, hne⟩, hany⟩
    subst hid
    refine ⟨ho, by simpa using hne, ?_⟩
    obtain ⟨r, hr, hweq⟩ := List.any_eq_true.mp hany
    exact ⟨r, hr, by simpa using hweq⟩
  · rintro ⟨hin, hne, r, hr, hweq⟩
    refine ⟨⟨⟨some w, hin, rfl⟩, by simpa using hne⟩, ?_⟩
    exact List.any_eq_true.mpr ⟨r, hr, by simp [hweq]⟩

theorem mainShortCircuit_some_iff (db : List StoredTxn) (w : String) (txns : List Txn) :
    mainShortCircuit db (some w) txns = true ↔
      (w ≠ "" ∧ some w ∈ txns.map (·.work_order_id) ∧
        ∃ r ∈ db, r.work_order_id = some w) := by
  unfold mainShortCircuit
  rw [Bool.and_eq_true, decide_eq_true_iff, get_existing_contains]
  tauto

theorem mainProcess_of_sc (P : ParseEnv) (ok : Nat → Bool) (db : List StoredTxn)
    (wid : Option String) (txns : List Txn)
    (h : mainShortCircuit db wid txns = true) :
    mainProcess P ok db wid txns =
      { db := db, processed := [], records_saved := 0,
        duplicates_skipped := txns.length, errors := [], dbError := false } := by
  unfold mainProcess
  rw [if_pos h]

theorem mainProcess_of_not_sc (P : ParseEnv) (ok : Nat → Bool) (db : List StoredTxn)
    (wid : Option String) (txns : List Txn)
    (h : mainShortCircuit db wid txns = false) (hok : ∀ i, ok i = true) :
    mainProcess P ok db wid txns =
      { db := db ++ txns.map (fun t => toStored (mainProcessRow P
            (mask_account_number (firstAccountNumber txns) false) t))
        processed := txns.map (mainProcessRow P
            (mask_account_number (firstAccountNumber txns) false))
        records_saved := txns.length
        duplicates_skipped := 0
        errors := []
        dbError := false } := by
  unfold mainProcess
  rw [if_neg (by simp [h])]
  simp only [persistChunks_eq, committedPart_all_ok ok hok,
    chunksF_flatten INSERT_BATCH_SIZE (by decide)]
  simp [List.length_map, Function.comp]

/-! ### Claim C1 -/

/-- C1, code bug: the claim (and the docstrings of `mask_account_number` and
`get_masked_account_number`) say the reveal width is decided by looking the
first account number's 4-digit mask up among stored rows, but `upload_file`
never performs that lookup: it calls `mask_account_number` with
`exists_in_db=False` unconditionally (`src/main.py` lines 540-542,
`src/apis.py` lines 355-357), and `get_masked_account_number` has no caller.
At a store that already holds the 4-digit mask `"XXXXXX7890"`, the batch is
still masked with 4 revealed digits, while the storage-lookup helper would
have produced the extended mask `"XXXXX67890"`. -/
theorem c1_reveal_decision :
    (mainProcess noParse allOk [storedMasked4] none [sampleTxn]).processed.map
        (·.masked_account_number) = [some "XXXXXX7890"] ∧
    get_masked_account_number [storedMasked4] (some "1234567890")
      = (true, some "XXXXX67890") :=
  ⟨by decide, by decide⟩

/-! ### Claim C2 -/

/-- C2: when the upload's work order id (nonempty, carried by its records)
already has stored rows, the pipeline classifies every record duplicate
up front — no record is processed, nothing is persisted, the saved count is
zero and the store is unchanged; and re-uploading the same records under
the same work order id after a fully successful upload persists zero
records the second time. -/
theorem c2_batch_short_circuit (P : ParseEnv) (ok : Nat → Bool)
    (db : List StoredTxn) (txns : List Txn) (w : String)
    (hw : w ≠ "") (hall : ∀ t ∈ txns, t.work_order_id = some w) :
    ((∃ r ∈ db, r.work_order_id = some w) →
      mainProcess P ok db (some w) txns =
        { db := db, processed := [], records_saved := 0,
          duplicates_skipped := txns.length, errors := [], dbError := false }) ∧
    (txns ≠ [] → (∀ i, ok i = true) →
      mainProcess P ok (mainProcess P ok db (some w) txns).db (some w) txns =
        { db := (mainProcess P ok db (some w) txns).db, processed := [],
          records_saved := 0, duplicates_skipped := txns.length,
          errors := [], dbError := false }) := by
  have hpart1 : ∀ db' : List StoredTxn, (∃ r ∈ db', r.work_order_id = some w) →
      mainProcess P ok db' (some w) txns =
        { db := db', processed := [], records_saved := 0,
          duplicates_skipped := txns.length, errors := [], dbError := false } := by
    intro db' hdb
    rcases txns with _ | ⟨t, ts⟩
    · simp [mainProcess, mainShortCircuit, get_existing_work_order_ids,
        chunksF, chunksGo, persistChunks]
    · have hin : some w ∈ (t :: ts).map (·.work_order_id) :=
        List.mem_map.mpr ⟨t, List.mem_cons_self t ts, hall t (List.mem_cons_self t ts)⟩
      exact mainProcess_of_sc P ok db' (some w) (t :: ts)
        ((mainShortCircuit_some_iff db' w (t :: ts)).mpr ⟨hw, hin, hdb⟩)
  refine ⟨hpart1 db, ?_⟩
  intro hne hok
  by_cases hdb : ∃ r ∈ db, r.work_order_id = some w
  · rw [hpart1 db hdb]
    exact hpart1 db hdb
  · have hsc : mainShortCircuit db (some w) txns = false := by
      apply Bool.eq_false_iff.mpr
      intro hc
      exact hdb ((mainShortCircuit_some_iff db w txns).mp hc).2.2
    rw [mainProcess_of_not_sc P ok db (some w) txns hsc hok]
    apply hpart1
    rcases txns with _ | ⟨t, ts⟩
    · exact absurd rfl hne
    · refine ⟨toStored (mainProcessRow P
          (mask_account_number (firstAccountNumber (t :: ts)) false) t), ?_, ?_⟩
      · exact List.mem_append_right _ (List.mem_map.mpr ⟨t, List.mem_cons_self t ts, rfl⟩)
      · show t.work_order_id = some w
        exact hall t (List.mem_cons_self t ts)

/-- C2, witness: a store that already holds work order `"WO1"` short-circuits
the upload of one record under that id. -/
theorem c2_witness :
    ("WO1" ≠ "" ∧ ∀ t ∈ [sampleTxnW], t.work_order_id = some "WO1") ∧
    mainProcess noParse allOk [storedW] (some "WO1") [sampleTxnW] =
      { db := [storedW], processed := [], records_saved := 0,
        duplicates_skipped := 1, errors := [], dbError := false } :=
  ⟨⟨by decide, by decide⟩,
    (c2_batch_short_circuit noParse allOk [storedW] [sampleTxnW] "WO1"
        (by decide) (by decide)).1 ⟨storedW, by decide, by decide⟩⟩

/-! ### Claim C8 -/

/-- C8: the persister slices the accepted rows into chunks of at most
`INSERT_BATCH_SIZE` = 500 that concatenate back to the rows in order; the
run extends the store by exactly the chunks committed before the first
failing one (later chunks are never attempted and earlier commits remain),
reports as saved exactly the number of rows in those chunks, and surfaces a
storage error precisely when some processed chunk failed; with no failure
every row is committed. -/
theorem c8_chunked_persistence (ok : Nat → Bool) (db rows : List StoredTxn) :
    (∀ c ∈ chunksF INSERT_BATCH_SIZE rows, c.length ≤ INSERT_BATCH_SIZE) ∧
    (chunksF INSERT_BATCH_SIZE rows).flatten = rows ∧
    persistChunks ok 0 db 0 (chunksF INSERT_BATCH_SIZE rows)
      = (db ++ (committedPart ok 0 (chunksF INSERT_BATCH_SIZE rows)).flatten,
         (committedPart ok 0 (chunksF INSERT_BATCH_SIZE rows)).flatten.length,
         decide ((committedPart ok 0 (chunksF INSERT_BATCH_SIZE rows)).length
           ≠ (chunksF INSERT_BATCH_SIZE rows).length)) ∧
    ((∀ i, ok i = true) →
      persistChunks ok 0 db 0 (chunksF INSERT_BATCH_SIZE rows)
        = (db ++ rows, rows.length, false)) := by
  refine ⟨fun c hc => chunksGo_size _ _ _ c hc,
    chunksF_flatten _ (by decide) _, ?_, ?_⟩
  · rw [persistChunks_eq]
    simp
  · intro hok
    rw [persistChunks_eq, committedPart_all_ok ok hok, chunksF_flatten _ (by decide)]
    simp

set_option maxRecDepth 100000 in
/-- C8, witness: 1200 accepted rows make chunks of 500, 500 and 200; with no
failure all 1200 are committed; when the second chunk's insert fails, 500
rows stay committed and the error is surfaced. -/
theorem c8_witness :
    persistChunks allOk 0 [] 0
        (chunksF INSERT_BATCH_SIZE (List.replicate 1200 storedMasked4))
      = (List.replicate 1200 storedMasked4, 1200, false) ∧
    (chunksF INSERT_BATCH_SIZE (List.replicate 1200 storedMasked4)).map List.length
      = [500, 500, 200] ∧
    persistChunks (fun i => i == 0) 0 [] 0
        (chunksF INSERT_BATCH_SIZE (List.replicate 1200 storedMasked4))
      = (List.replicate 500 storedMasked4, 500, true) := by
  refine ⟨?_, by rfl, by rfl⟩
  have h := (c8_chunked_persistence allOk [] (List.replicate 1200 storedMasked4)).2.2.2
    (fun i => rfl)
  rw [List.nil_append, List.length_replicate] at h
  exact h

/-! ### Lemmas about record-level deduplication -/

theorem bimp_iff (c p : Bool) : (!c || p) = true ↔ (c = true → p = true) := by
  cases c <;> simp

theorem is_duplicate_iff (db : List StoredTxn) (t : Txn) :
    is_duplicate_transaction db t = true ↔ ∃ r ∈ db, dupMatches t r := by
  unfold is_duplicate_transaction dupMatches
  rw [List.any_eq_true]
  apply exists_congr
  intro r
  simp only [Bool.and_eq_true, bimp_iff, beq_iff_eq]
  tauto

theorem dupMatches_toStored (t : Txn) : dupMatches t (toStored t) :=
  ⟨fun _ => rfl, fun _ => rfl, fun _ => rfl, fun _ => rfl, fun _ => rfl,
   fun _ => rfl, fun _ => rfl, fun _ => rfl⟩

theorem is_duplicate_append (db e : List StoredTxn) (t : Txn)
    (h : is_duplicate_transaction db t = true) :
    is_duplicate_transaction (db ++ e) t = true := by
  rw [is_duplicate_iff] at h ⊢
  obtain ⟨r, hr, hm⟩ := h
  exact ⟨r, List.mem_append_left _ hr, hm⟩

theorem apisProcessRow_eq (P : ParseEnv) (db : List StoredTxn)
    (fm : Option String) (t : Txn) :
    apisProcessRow P db fm t =
      (if is_duplicate_transaction db (apisRowCore P fm t) then apisRowCore P fm t
       else popRaw (apisRowCore P fm t),
       is_duplicate_transaction db (apisRowCore P fm t)) := by
  unfold apisProcessRow
  by_cases h : is_duplicate_transaction db (apisRowCore P fm t) = true
  · simp [h]
  · simp [Bool.eq_false_iff.mpr h]

theorem apisLoop_cons (P : ParseEnv) (db : List StoredTxn) (fm : Option String)
    (u : Txn) (ts : List Txn) :
    apisLoop P db fm (u :: ts)
      = (if (apisProcessRow P db fm u).2
         then ((apisLoop P db fm ts).1, (apisLoop P db fm ts).2 + 1)
         else ((apisProcessRow P db fm u).1 :: (apisLoop P db fm ts).1,
           (apisLoop P db fm ts).2)) := rfl

theorem apisLoop_all_dup (P : ParseEnv) (db : List StoredTxn) (fm : Option String) :
    ∀ ts : List Txn,
      (∀ t ∈ ts, is_duplicate_transaction db (apisRowCore P fm t) = true) →
      apisLoop P db fm ts = ([], ts.length) := by
  intro ts
  induction ts with
  | nil => intro _; rfl
  | cons t ts ih =>
      intro h
      rw [apisLoop_cons, apisProcessRow_eq, h t (List.mem_cons_self t ts),
        ih (fun u hu => h u (List.mem_cons_of_mem t hu))]
      simp

theorem apisLoop_mem_nondup (P : ParseEnv) (db : List StoredTxn) (fm : Option String) :
    ∀ ts : List Txn, ∀ t ∈ ts,
      is_duplicate_transaction db (apisRowCore P fm t) = false →
      popRaw (apisRowCore P fm t) ∈ (apisLoop P db fm ts).1 := by
  intro ts
  induction ts with
  | nil => intro t ht; simp at ht
  | cons u ts ih =>
      intro t ht hnd
      rw [apisLoop_cons]
      rcases List.mem_cons.mp ht with rfl | hts
      · rw [apisProcessRow_eq, hnd]
        simp [apisProcessRow_eq, hnd]
      · have hmem := ih t hts hnd
        by_cases hd : (apisProcessRow P db fm u).2 = true
        · rw [if_pos hd]
          exact hmem
        · rw [if_neg hd]
          exact List.mem_cons_of_mem _ hmem

theorem apisLoop_processed_fields (P : ParseEnv) (db : List StoredTxn) (fm : Option String) :
    ∀ ts : List Txn, ∀ t' ∈ (apisLoop P db fm ts).1,
      t'.account_number = none ∧ t'.account_address = none ∧
        t'.masked_account_number = fm := by
  intro ts
  induction ts with
  | nil => intro t' h; simp [apisLoop] at h
  | cons u ts ih =>
      intro t' h
      rw [apisLoop_cons] at h
      by_cases hd : (apisProcessRow P db fm u).2 = true
      · rw [if_pos hd] at h
        exact ih t' h
      · rw [if_neg hd] at h
        rcases List.mem_cons.mp h with rfl | hts
        · have hd' : is_duplicate_transaction db (apisRowCore P fm u) = false := by
            rw [apisProcessRow_eq] at hd
            exact Bool.eq_false_iff.mpr hd
          rw [apisProcessRow_eq, hd']
          exact ⟨rfl, rfl, rfl⟩
        · exact ih _ hts

theorem apisProcess_db (P : ParseEnv) (db : List StoredTxn) (txns : List Txn) :
    (apisProcess P db txns).db
      = (if (apisLoop P db (mask_account_number (firstAccountNumber txns) false)
            txns).1.isEmpty
         then db
         else db ++ (apisLoop P db (mask_account_number (firstAccountNumber txns) false)
           txns).1.map toStored) := rfl

theorem apisProcess_processed (P : ParseEnv) (db : List StoredTxn) (txns : List Txn) :
    (apisProcess P db txns).processed
      = (apisLoop P db (mask_account_number (firstAccountNumber txns) false) txns).1 := rfl

theorem apisProcess_saved (P : ParseEnv) (db : List StoredTxn) (txns : List Txn) :
    (apisProcess P db txns).records_saved
      = (apisLoop P db (mask_account_number (firstAccountNumber txns) false)
          txns).1.length := rfl

theorem apisProcess_dups (P : ParseEnv) (db : List StoredTxn) (txns : List Txn) :
    (apisProcess P db txns).duplicates_skipped
      = (apisLoop P db (mask_account_number (firstAccountNumber txns) false)
          txns).2 := rfl

theorem apisProcess_db_append (P : ParseEnv) (db : List StoredTxn) (txns : List Txn) :
    ∃ e, (apisProcess P db txns).db = db ++ e := by
  rw [apisProcess_db]
  by_cases h : (apisLoop P db (mask_account_number (firstAccountNumber txns) false)
      txns).1.isEmpty = true
  · exact ⟨[], by rw [if_pos h, List.append_nil]⟩
  · exact ⟨_, by rw [if_neg h]⟩

/-- Every record of a re-uploaded identical batch is flagged by the
record-level duplicate check against the store left by the first upload. -/
theorem apis_second_all_dup (P : ParseEnv) (db : List StoredTxn) (txns : List Txn) :
    ∀ t ∈ txns,
      is_duplicate_transaction (apisProcess P db txns).db
        (apisRowCore P (mask_account_number (firstAccountNumber txns) false) t) = true := by
  intro t ht
  by_cases hd : is_duplicate_transaction db
      (apisRowCore P (mask_account_number (firstAccountNumber txns) false) t) = true
  · obtain ⟨e, he⟩ := apisProcess_db_append P db txns
    rw [he]
    exact is_duplicate_append db e _ hd
  · have hd' := Bool.eq_false_iff.mpr hd
    have hmem := apisLoop_mem_nondup P db
      (mask_account_number (firstAccountNumber txns) false) txns t ht hd'
    have hne : ((apisLoop P db (mask_account_number (firstAccountNumber txns) false)
        txns).1).isEmpty = false := by
      rcases hl : (apisLoop P db (mask_account_number (firstAccountNumber txns) false)
          txns).1 with _ | _
      · rw [hl] at hmem
        simp at hmem
      · rfl
    rw [apisProcess_db, if_neg (by simp [hne]), is_duplicate_iff]
    exact ⟨toStored (popRaw (apisRowCore P
        (mask_account_number (firstAccountNumber txns) false) t)),
      List.mem_append_right _ (List.mem_map.mpr ⟨_, hmem, rfl⟩),
      dupMatches_toStored _⟩

theorem mainProcess_processed_eq (P : ParseEnv) (ok : Nat → Bool) (db : List StoredTxn)
    (wid : Option String) (txns : List Txn) :
    (mainProcess P ok db wid txns).processed
      = (if mainShortCircuit db wid txns then []
         else txns.map (mainProcessRow P
           (mask_account_number (firstAccountNumber txns) false))) := by
  unfold mainProcess
  by_cases h : mainShortCircuit db wid txns = true
  · rw [if_pos h, if_pos h]
  · rw [if_neg h, if_neg h]

/-! ### Claim C3 -/

/-- C3, counterexample: the pipeline with the batch-level short-circuit
(`src/main.py`) performs *no* record-level duplicate comparison at all.
Uploading the same single record twice with no work order id persists it
again: the second upload reports 1 saved and 0 duplicates even though a
stored row matching every present field exists (as `is_duplicate_transaction`
itself confirms), contradicting the claimed classification and the claimed
zero-persistence on the second upload. -/
theorem c3_counterexample :
    (mainProcess noParse allOk (mainProcess noParse allOk [] none [sampleTxn]).db
        none [sampleTxn]).records_saved = 1 ∧
    (mainProcess noParse allOk (mainProcess noParse allOk [] none [sampleTxn]).db
        none [sampleTxn]).duplicates_skipped = 0 ∧
    is_duplicate_transaction (mainProcess noParse allOk [] none [sampleTxn]).db
      (apisRowCore noParse (mask_account_number (firstAccountNumber [sampleTxn]) false)
        sampleTxn) = true :=
  ⟨by decide, by decide, by decide⟩

/-- C3 (amended): record-level deduplication lives in the `apis.py` pipeline
variant (which has no batch-level short-circuit): there, a record is
classified duplicate if and only if some existing stored row matches it on
every present field among date, amount, balance, charges, direction type,
masked account number, description and reference (absent fields excluded),
and uploading the same records twice classifies all of the second upload's
records as duplicates and persists none of them.  The `main.py` pipeline
performs no record-level comparison when its batch-level short-circuit does
not apply. -/
theorem c3_record_dedup (P : ParseEnv) (db : List StoredTxn) (txns : List Txn) :
    (∀ (fm : Option String) (t : Txn),
      (apisProcessRow P db fm t).2 = true ↔
        ∃ r ∈ db, dupMatches (apisRowCore P fm t) r) ∧
    ((apisProcess P (apisProcess P db txns).db txns).records_saved = 0 ∧
     (apisProcess P (apisProcess P db txns).db txns).duplicates_skipped = txns.length ∧
     (apisProcess P (apisProcess P db txns).db txns).processed = [] ∧
     (apisProcess P (apisProcess P db txns).db txns).db = (apisProcess P db txns).db) := by
  constructor
  · intro fm t
    rw [apisProcessRow_eq]
    exact is_duplicate_iff db (apisRowCore P fm t)
  · have hloop := apisLoop_all_dup P (apisProcess P db txns).db
      (mask_account_number (firstAccountNumber txns) false) txns
      (apis_second_all_dup P db txns)
    refine ⟨?_, ?_, ?_, ?_⟩
    · rw [apisProcess_saved, hloop]
      rfl
    · rw [apisProcess_dups, hloop]
    · rw [apisProcess_processed, hloop]
    · rw [apisProcess_db, hloop]
      rfl

/-- C3, witness: the amended theorem at a concrete one-record upload with
no work order id, repeated twice. -/
theorem c3_witness :
    (apisProcess noParse (apisProcess noParse [] [sampleTxn]).db
        [sampleTxn]).records_saved = 0 ∧
    (apisProcess noParse (apisProcess noParse [] [sampleTxn]).db
        [sampleTxn]).duplicates_skipped = 1 :=
  ⟨(c3_record_dedup noParse [] [sampleTxn]).2.1,
   (c3_record_dedup noParse [] [sampleTxn]).2.2.1⟩

/-! ### Claim C9 -/

/-- C9, counterexample to the unconditionality rider: in the `apis.py`
pipeline a record classified duplicate is skipped *before* the stripping
step, so its raw account number survives the processing loop — the
stripping is conditional on the classification (the record is, however,
not persisted). -/
theorem c9_counterexample :
    (apisProcessRow noParse [storedDup]
        (mask_account_number (firstAccountNumber [sampleTxn]) false) sampleTxn).2 = true ∧
    (apisProcessRow noParse [storedDup]
        (mask_account_number (firstAccountNumber [sampleTxn]) false) sampleTxn).1.account_number
      = some "1234567890" :=
  ⟨by decide, by decide⟩

/-- C9 (amended): in both pipelines, every record handed to the persister
has the raw account number and raw address fields removed, so no persisted
row ever contains them; in `main.py` the stripping is unconditional for
every processed record, while in `apis.py` records classified duplicate are
skipped before the stripping step (and never persisted). -/
theorem c9_raw_fields_stripped (P : ParseEnv) (ok : Nat → Bool) (db : List StoredTxn)
    (wid : Option String) (txns : List Txn) :
    (∀ t ∈ (mainProcess P ok db wid txns).processed,
      t.account_number = none ∧ t.account_address = none) ∧
    (∀ t ∈ (apisProcess P db txns).processed,
      t.account_number = none ∧ t.account_address = none) := by
  constructor
  · intro t ht
    rw [mainProcess_processed_eq] at ht
    by_cases h : mainShortCircuit db wid txns = true
    · rw [if_pos h] at ht
      simp at ht
    · rw [if_neg h] at ht
      obtain ⟨u, _, rfl⟩ := List.mem_map.mp ht
      exact ⟨rfl, rfl⟩
  · intro t ht
    rw [apisProcess_processed] at ht
    have := apisLoop_processed_fields P db
      (mask_account_number (firstAccountNumber txns) false) txns t ht
    exact ⟨this.1, this.2.1⟩

/-- C9, witness: the theorem at a concrete upload of one record through the
`main.py` pipeline. -/
theorem c9_witness :
    ((mainProcess noParse allOk [] none [sampleTxn]).processed.getD 0 {}).account_number
      = none :=
  ((c9_raw_fields_stripped noParse allOk [] none [sampleTxn]).1 _ (by decide)).1

/-! ### Claim C10 -/

/-- C10: within one upload every processed record's masked account number is
set to the masked form of the *first* extracted record's raw account
number, regardless of the record's own raw account number — in both
pipeline variants; hence two records of one upload with different raw
account numbers are persisted with identical masked account numbers. -/
theorem c10_first_mask_everywhere (P : ParseEnv) (ok : Nat → Bool) (db : List StoredTxn)
    (wid : Option String) (txns : List Txn) :
    (∀ t ∈ (mainProcess P ok db wid txns).processed,
      t.masked_account_number
        = mask_account_number (firstAccountNumber txns) false) ∧
    (∀ t ∈ (apisProcess P db txns).processed,
      t.masked_account_number
        = mask_account_number (firstAccountNumber txns) false) := by
  constructor
  · intro t ht
    rw [mainProcess_processed_eq] at ht
    by_cases h : mainShortCircuit db wid txns = true
    · rw [if_pos h] at ht
      simp at ht
    · rw [if_neg h] at ht
      obtain ⟨u, _, rfl⟩ := List.mem_map.mp ht
      rfl
  · intro t ht
    rw [apisProcess_processed] at ht
    exact (apisLoop_processed_fields P db
      (mask_account_number (firstAccountNumber txns) false) txns t ht).2.2

/-- C10, witness: two records with different raw account numbers
(`"1234567890"` and `"9999999999"`) both end up carrying the first's
4-digit mask. -/
theorem c10_witness :
    ((mainProcess noParse allOk [] none [sampleTxn, sampleTxn2]).processed.getD 1
        {}).masked_account_number
      = mask_account_number (firstAccountNumber [sampleTxn, sampleTxn2]) false :=
  (c10_first_mask_everywhere noParse allOk [] none [sampleTxn, sampleTxn2]).1 _ (by decide)

/-! ### Lemmas about columnar-dialect extraction -/

theorem extractColGo_eq (x : Columnar) (m : Option MetaS) (cn wid : Option String) :
    ∀ (fuel idx : Nat),
      extractColGo x m cn wid fuel idx
        = (((List.range' idx fuel).takeWhile
              (fun i => (extractColumnarRow x m cn wid i).toOption.isSome)).filterMap
            (fun i => (extractColumnarRow x m cn wid i).toOption),
           (List.range' idx fuel).all
             (fun i => (extractColumnarRow x m cn wid i).toOption.isSome)) := by
  intro fuel
  induction fuel with
  | zero => intro idx; rfl
  | succ fuel ih =>
      intro idx
      have hr : List.range' idx (fuel + 1) = idx :: List.range' (idx + 1) fuel := rfl
      rcases h : extractColumnarRow x m cn wid idx with e | t
      · rw [show extractColGo x m cn wid (fuel + 1) idx = ([], false) from by
          rw [extractColGo, h]]
        rw [hr, List.takeWhile_cons, List.all_cons]
        simp [h, Except.toOption]
      · rw [show extractColGo x m cn wid (fuel + 1) idx
            = (t :: (extractColGo x m cn wid fuel (idx + 1)).1,
               (extractColGo x m cn wid fuel (idx + 1)).2) from by
          rw [extractColGo, h]]
        rw [ih (idx + 1), hr, List.takeWhile_cons, List.all_cons]
        simp [h, Except.toOption]

theorem mainProcess_errors (P : ParseEnv) (ok : Nat → Bool) (db : List StoredTxn)
    (wid : Option String) (txns : List Txn) :
    (mainProcess P ok db wid txns).errors = [] := by
  unfold mainProcess
  by_cases h : mainShortCircuit db wid txns = true
  · rw [if_pos h]
  · rw [if_neg h]

/-! ### Claim C4 -/

/-- C4, counterexample: the columnar extraction loop sits inside a single
`try`, so the index error at record 1 of `colShort` aborts the loop (one
record extracted, abort flag set), yet the upload's reported error list is
empty and the response counts 1 saved row — the error is neither caught per
record nor reported.  In the nested-list dialect, the failure in the first
marker key of `itemsAborted` aborts the whole element, so the second marker
key's fully extractable row (shown extractable by `extractRows`) is never
extracted. -/
theorem c4_counterexample :
    (extractColumnar colShort (some metaScalar) none none).1.length = 1 ∧
    (extractColumnar colShort (some metaScalar) none none).2 = false ∧
    (mainUploadDict noParse allOk [] colShort (some metaScalar) none none).errors = [] ∧
    (mainUploadDict noParse allOk [] colShort (some metaScalar) none none).records_saved = 1 ∧
    extractList itemsAborted (some metaArr) none none = [] ∧
    (extractRows colRow1 (some metaArr) none none 1).2 = true ∧
    (extractRows colRow1 (some metaArr) none none 1).1.length = 1 :=
  ⟨by decide, by decide, by decide, by decide, by decide, by decide, by decide⟩

/-- C4 (amended): a failing record aborts the remaining extraction of its
dialect unit — the columnar loop extracts exactly the records of the
longest prefix of indices whose extraction succeeds, and its abort flag is
set exactly when some index fails; the error is only logged, never added to
the error list the caller sees, which is empty on every upload (the
processing loop's own try body is total); records extracted before the
failure still proceed through processing and persistence. -/
theorem c4_row_error_handling (x : Columnar) (m : Option MetaS)
    (cn wid : Option String) (P : ParseEnv) (ok : Nat → Bool) (db : List StoredTxn) :
    (extractColumnar x m cn wid).1
      = ((List.range (x.date.getD []).length).takeWhile
            (fun i => (extractColumnarRow x m cn wid i).toOption.isSome)).filterMap
          (fun i => (extractColumnarRow x m cn wid i).toOption) ∧
    ((extractColumnar x m cn wid).2
      = (List.range (x.date.getD []).length).all
          (fun i => (extractColumnarRow x m cn wid i).toOption.isSome)) ∧
    (mainUploadDict P ok db x m cn wid).errors = [] := by
  refine ⟨?_, ?_, mainProcess_errors P ok db wid _⟩
  · rw [show extractColumnar x m cn wid
        = extractColGo x m cn wid (x.date.getD []).length 0 from rfl,
      extractColGo_eq, List.range_eq_range']
  · rw [show extractColumnar x m cn wid
        = extractColGo x m cn wid (x.date.getD []).length 0 from rfl,
      extractColGo_eq, List.range_eq_range']

/-- C4, witness: the amended theorem at the concrete mismatched-arrays
document. -/
theorem c4_witness :
    (mainUploadDict noParse allOk [] colShort (some metaScalar) none none).errors = [] :=
  (c4_row_error_handling colShort (some metaScalar) none none noParse allOk []).2.2

/-! ### Lemmas about nested-list-dialect extraction -/

theorem getElem_some_lt {α : Type _} (l : List α) (n : Nat) (a : α)
    (h : l[n]? = some a) : n < l.length := by
  by_contra hn
  rw [List.getElem?_eq_none (Nat.le_of_not_lt hn)] at h
  cases h

theorem procEntries_ok (m : Option MetaA) (cn wid : Option String) :
    ∀ (es : List (String × JVal)) (mid : Nat),
      (∀ j c, (markerValsE es)[j]? = some (JVal.col c) →
        (extractRows c m cn wid (mid + j)).2 = true) →
      procEntries m cn wid es mid
        = (((markerValsE es).enumFrom mid).flatMap (markerStep m cn wid),
           mid + (markerValsE es).length, true) := by
  intro es
  induction es with
  | nil =>
      intro mid H
      simp [procEntries, markerValsE]
  | cons kv rest ih =>
      obtain ⟨k, v⟩ := kv
      intro mid H
      by_cases hm : isMarker k = true
      · have hmv : markerValsE ((k, v) :: rest) = v :: markerValsE rest := by
          simp [markerValsE, hm]
        have H' : ∀ j c, (markerValsE rest)[j]? = some (JVal.col c) →
            (extractRows c m cn wid (mid + 1 + j)).2 = true := by
          intro j c hj
          have h2 := H (j + 1) c (by rw [hmv]; simpa using hj)
          have harith : mid + (j + 1) = mid + 1 + j := by omega
          rw [harith] at h2
          exact h2
        rcases v with _ | c
        · rw [show procEntries m cn wid ((k, JVal.prim) :: rest) mid
              = procEntries m cn wid rest (mid + 1) from by
            rw [procEntries, if_pos hm]]
          rw [ih (mid + 1) H', hmv, List.enumFrom_cons]
          simp [markerStep, Prod.ext_iff]
          omega
        · have h0 : (extractRows c m cn wid mid).2 = true := by
            have := H 0 c (by rw [hmv]; simp)
            simpa using this
          rw [show procEntries m cn wid ((k, JVal.col c) :: rest) mid
              = ((extractRows c m cn wid mid).1
                  ++ (procEntries m cn wid rest (mid + 1)).1,
                 (procEntries m cn wid rest (mid + 1)).2) from by
            rw [procEntries, if_pos hm]
            rw [if_pos h0]]
          rw [ih (mid + 1) H', hmv, List.enumFrom_cons]
          simp [markerStep, Prod.ext_iff]
          omega
      · have hmv : markerValsE ((k, v) :: rest) = markerValsE rest := by
          simp [markerValsE, hm]
        rw [show procEntries m cn wid ((k, v) :: rest) mid
            = procEntries m cn wid rest mid from by
          rcases v with _ | c <;> rw [procEntries, if_neg hm]]
        rw [ih mid (fun j c hj => H j c (by rw [hmv]; exact hj)), hmv]

theorem goItems_ok (m : Option MetaA) (cn wid : Option String) :
    ∀ (items : List JItem) (mid : Nat),
      (∀ j c, (markerVals items)[j]? = some (JVal.col c) →
        (extractRows c m cn wid (mid + j)).2 = true) →
      goItems m cn wid items mid
        = (((markerVals items).enumFrom mid).flatMap (markerStep m cn wid),
           mid + (markerVals items).length) := by
  intro items
  induction items with
  | nil =>
      intro mid H
      simp [goItems, markerVals]
  | cons it rest ih =>
      intro mid H
      rcases it with _ | es
      · have hmv : markerVals (JItem.nondict :: rest) = markerVals rest := by
          simp [markerVals]
        rw [show goItems m cn wid (JItem.nondict :: rest) mid
            = goItems m cn wid rest mid from by rw [goItems]]
        rw [ih mid (fun j c hj => H j c (by rw [hmv]; exact hj)), hmv]
      · have hmv : markerVals (JItem.obj es :: rest)
            = markerValsE es ++ markerVals rest := by
          simp [markerVals]
        have H1 : ∀ j c, (markerValsE es)[j]? = some (JVal.col c) →
            (extractRows c m cn wid (mid + j)).2 = true := by
          intro j c hj
          apply H j c
          rw [hmv, List.getElem?_append, if_pos (getElem_some_lt _ _ _ hj)]
          exact hj
        have H2 : ∀ j c, (markerVals rest)[j]? = some (JVal.col c) →
            (extractRows c m cn wid (mid + (markerValsE es).length + j)).2 = true := by
          intro j c hj
          have hget : (markerVals (JItem.obj es :: rest))[(markerValsE es).length + j]?
              = some (JVal.col c) := by
            rw [hmv, List.getElem?_append, if_neg (by omega)]
            have harith2 : (markerValsE es).length + j - (markerValsE es).length = j := by
              omega
            rw [harith2]
            exact hj
          have h2 := H ((markerValsE es).length + j) c hget
          have harith : mid + ((markerValsE es).length + j)
              = mid + (markerValsE es).length + j := by omega
          rw [harith] at h2
          exact h2
        rw [show goItems m cn wid (JItem.obj es :: rest) mid
            = ((procEntries m cn wid es mid).1
                ++ (goItems m cn wid rest (procEntries m cn wid es mid).2.1).1,
               (goItems m cn wid rest (procEntries m cn wid es mid).2.1).2) from by
          rw [goItems]]
        rw [procEntries_ok m cn wid es mid H1]
        simp only []
        rw [ih (mid + (markerValsE es).length) H2]
        rw [hmv, List.enumFrom_append, List.flatMap_append]
        simp [Prod.ext_iff]
        omega

/-! ### Claim C7 -/

/-- C7, counterexample: the metadata counter (`id` in the code) is advanced
once per marker-bearing *key*, not once per marker-bearing element.  In a
document whose single outer-list element bears two marker keys, the counter
ends at 2 and the element's two records receive metadata entries 0 and 1
(`ifsc_code` `"A"` and `"B"`), whereas the claim requires every record of
this 0th marker-bearing element to receive entry 0. -/
theorem c7_counterexample :
    (extractList itemsTwoMarkers (some metaArr) none none).map (·.ifsc_code)
      = [some "A", some "B"] ∧
    (goItems (some metaArr) none none itemsTwoMarkers 0).2 = 2 ∧
    ¬ (some "B" = (some "A" : Option String)) :=
  ⟨by decide, by decide, by decide⟩

/-- C7 (amended): when every attempted row extraction succeeds, the metadata
counter advances exactly once per marker-bearing key (also for marker keys
whose value is not a columnar object) and never on non-marker keys or
non-object elements: the extraction equals the concatenation, over the
marker-bearing keys enumerated in traversal order, of each key's rows taken
at its own ordinal as the metadata index, and the final counter equals the
number of marker-bearing keys. -/
theorem c7_metadata_indexing (m : Option MetaA) (cn wid : Option String)
    (items : List JItem)
    (H : ∀ j c, (markerVals items)[j]? = some (JVal.col c) →
      (extractRows c m cn wid j).2 = true) :
    extractList items m cn wid
      = (markerVals items).enum.flatMap (markerStep m cn wid) ∧
    (goItems m cn wid items 0).2 = (markerVals items).length := by
  have H0 : ∀ j c, (markerVals items)[j]? = some (JVal.col c) →
      (extractRows c m cn wid (0 + j)).2 = true := by
    intro j c hj
    have h2 := H j c hj
    rw [Nat.zero_add]
    exact h2
  have hg := goItems_ok m cn wid items 0 H0
  constructor
  · show (goItems m cn wid items 0).1 = _
    rw [hg]
    rfl
  · rw [hg]
    simp

/-- C7, witness: the amended theorem at a concrete one-element,
one-marker-key document with two-entry metadata arrays. -/
theorem c7_witness :
    extractList itemsOneMarker (some metaArr) none none
      = (markerVals itemsOneMarker).enum.flatMap (markerStep (some metaArr) none none) := by
  refine (c7_metadata_indexing (some metaArr) none none itemsOneMarker ?_).1
  have hlist : markerVals itemsOneMarker = [JVal.col colRow1] := by decide
  intro j c hj
  rcases j with _ | j
  · rw [hlist] at hj
    simp only [List.getElem?_cons_zero, Option.some.injEq, JVal.col.injEq] at hj
    subst hj
    decide
  · rw [hlist] at hj
    simp at hj

end Macro
